import Mathlib

/-!
Shallow embedding of the multi-account Outlook MCP server core:
account registry, fan-out executor (`executeForAccounts`), response
aggregator (`formatMultiAccountResponse`), session manager
(`getAccessToken`, `clearTokenCache`), configuration loading and
validation, the interactive-login promise lifecycle, and the mail-send
account selection.

Modelling conventions: JavaScript `undefined` and `null` are modelled
with `Option`; string truthiness is an explicit emptiness test; thrown
exceptions are `Except.error`; the token-cache file is an optional
association list (`none` = file absent); network traffic is counted
explicitly so that "no network call" claims are about a number.
-/

namespace MCPOutlook

/-- One configured account (types.ts, `AccountConfig`). -/
structure AccountConfig where
  name : String
  tenantId : String
  clientId : String
  clientSecret : String
deriving DecidableEq

/-- `AuthManager.getAllAccountNames` (auth.ts, lines 123-125): the names of the
configured accounts, in configuration order. -/
def getAllAccountNames (accounts : List AccountConfig) : List String :=
  accounts.map (fun acc => acc.name)

/-- `AccountResponse<T>` (types.ts): one per-account outcome of a fan-out.
`data` is `none` when the operation failed (`null` in the source);
`error` is `none` when the `error` field is absent. -/
structure AccountOutcome (T : Type) where
  account : String
  data : Option T
  error : Option String
deriving DecidableEq

/-- JavaScript truthiness of the optional `error` field of an outcome:
absent and the empty string are falsy. -/
def errorTruthy : Option String → Bool
  | none => false
  | some s => !(s == "")

/-- The account list resolved by `executeForAccounts` (index.ts, lines 332-334):
`accountName ? [accountName] : this.authManager.getAllAccountNames()`.
A provided empty string is falsy in JavaScript, hence also fans out. -/
def resolveAccounts (accounts : List AccountConfig) (accountName : Option String) :
    List String :=
  match accountName with
  | some n => if n = "" then getAllAccountNames accounts else [n]
  | none => getAllAccountNames accounts

/-- The inner async closure of `executeForAccounts` (index.ts, lines 337-344):
runs the operation for one account and catches its failure, so the task
always fulfills, with either `{account, data}` or `{account, data: null,
error: error.message}`.  The per-account operation is modelled as a
deterministic `Except`-valued function. -/
def runOne {T : Type} (operation : String → Except String T) (account : String) :
    AccountOutcome T :=
  match operation account with
  | Except.ok d => { account := account, data := some d, error := none }
  | Except.error msg => { account := account, data := none, error := some msg }

/-- `executeForAccounts` (index.ts, lines 328-354).  Because every task
fulfills (the inner closure catches), `Promise.allSettled` followed by the
`fulfilled`/`rejected` map is exactly a map of `runOne` over the resolved
account list; the `rejected` branch (line 351) is unreachable. -/
def executeForAccounts {T : Type} (accounts : List AccountConfig)
    (accountName : Option String) (operation : String → Except String T) :
    List (AccountOutcome T) :=
  (resolveAccounts accounts accountName).map (runOne operation)

/-- JavaScript `Array.prototype.join(sep)`. -/
def joinSep (sep : String) : List String → String
  | [] => ""
  | [x] => x
  | x :: y :: rest => x ++ sep ++ joinSep sep (y :: rest)

/-- The mapped success blocks of the multi-account branch
(index.ts, line 372): one `[account]`-prefixed block per outcome whose
`error` field is falsy.  `fmt` stands for `this.formatSingleResponse`
applied to the outcome's `data` field. -/
def successBlocks {T : Type} (fmt : Option T → String)
    (results : List (AccountOutcome T)) : List String :=
  (results.filter (fun r => !errorTruthy r.error)).map
    (fun r => "[" ++ r.account ++ "]\n" ++ fmt r.data)

/-- The mapped error lines of the multi-account branch (index.ts, line 376):
one `[account] Error: ...` line per outcome whose `error` field is truthy. -/
def errorLines {T : Type} (results : List (AccountOutcome T)) : List String :=
  (results.filter (fun r => errorTruthy r.error)).map
    (fun r => "[" ++ r.account ++ "] Error: " ++ r.error.getD "")

/-- The `response` string built by the multi-account branch of
`formatMultiAccountResponse` (index.ts, lines 366-378): success blocks
joined by blank lines, then, when there are error results, the error
lines joined by newlines, separated from a non-empty success part by a
blank line. -/
def multiResponseText {T : Type} (fmt : Option T → String)
    (results : List (AccountOutcome T)) : String :=
  let response :=
    if (results.filter (fun r => !errorTruthy r.error)).length > 0 then
      joinSep "\n\n" (successBlocks fmt results)
    else ""
  if (results.filter (fun r => errorTruthy r.error)).length > 0 then
    response ++ (if response ≠ "" then "\n\n" else "") ++ joinSep "\n" (errorLines results)
  else response

/-- The value returned by `formatMultiAccountResponse`: either the single
outcome's data returned unwrapped, or the aggregated text reply
(the `{content: [{type: 'text', text}]}` object, modelled by its text). -/
inductive AggReply (T : Type) where
  | single (data : Option T)
  | multi (text : String)
deriving DecidableEq

/-- `formatMultiAccountResponse` (index.ts, lines 356-389).  With exactly one
outcome, a truthy error is re-thrown as `"account: error"` and otherwise the
data is returned unwrapped; with any other number of outcomes the aggregated
text reply is returned. -/
def formatMultiAccountResponse {T : Type} (fmt : Option T → String)
    (results : List (AccountOutcome T)) : Except String (AggReply T) :=
  match results with
  | [result] =>
    if errorTruthy result.error then
      Except.error (result.account ++ ": " ++ result.error.getD "")
    else
      Except.ok (AggReply.single result.data)
  | _ => Except.ok (AggReply.multi (multiResponseText fmt results))

/-- Written from the claim's words, for comparison with the source-derived
`multiResponseText`: one labelled block per success, in account order,
followed by one labelled block per error. -/
def aggSpecText {T : Type} (fmt : Option T → String)
    (results : List (AccountOutcome T)) : String :=
  match successBlocks fmt results, errorLines results with
  | [], [] => ""
  | s :: ss, [] => joinSep "\n\n" (s :: ss)
  | [], e :: es => joinSep "\n" (e :: es)
  | s :: ss, e :: es => joinSep "\n\n" (s :: ss) ++ "\n\n" ++ joinSep "\n" (e :: es)

/-- The provider-side account object carried inside a cached MSAL token
response (`cachedToken.account`), used as the refresh handle for
`acquireTokenSilent`. -/
structure MsalAccountInfo where
  homeAccountId : String
  username : String
deriving DecidableEq

/-- The token material cached per account in `.tokens.json` (the MSAL token
response fields that `getAccessToken` reads): access token, absolute
expiry instant, and the optional account object used as refresh handle. -/
structure TokenRecord where
  accessToken : String
  expiresOn : Int
  account : Option MsalAccountInfo
deriving DecidableEq

/-- The parsed content of the `.tokens.json` file: account name to token
record, in insertion order. -/
abbrev TokenCacheFile := List (String × TokenRecord)

/-- The token-store state: `some cache` when the `.tokens.json` file exists,
`none` when it does not. -/
abbrev TokenStore := Option TokenCacheFile

/-- JavaScript object key lookup `cache[accountName]` on the parsed file. -/
def lookupCache : TokenCacheFile → String → Option TokenRecord
  | [], _ => none
  | (k, v) :: rest, n => if k = n then some v else lookupCache rest n

/-- JavaScript assignment `cache[accountName] = tokenResponse`: overwrite in
place when the key exists, append otherwise. -/
def setCache : TokenCacheFile → String → TokenRecord → TokenCacheFile
  | [], n, record => [(n, record)]
  | (k, v) :: rest, n, record =>
    if k = n then (k, record) :: rest else (k, v) :: setCache rest n record

/-- JavaScript `delete cache[accountName]`: remove the key. -/
def eraseCache : TokenCacheFile → String → TokenCacheFile
  | [], _ => []
  | (k, v) :: rest, n =>
    if k = n then eraseCache rest n else (k, v) :: eraseCache rest n

/-- `AuthManager.loadTokenFromCache` (auth.ts, lines 160-171): when the file
exists, the record under the account name (possibly absent); when the file
does not exist (or reading fails, which the source logs and falls through
from), `null`. -/
def loadTokenFromCache (store : TokenStore) (accountName : String) :
    Option TokenRecord :=
  match store with
  | some cache => lookupCache cache accountName
  | none => none

/-- `AuthManager.saveTokenToCache` (auth.ts, lines 143-158): read the existing
file (or start from an empty object), set the account's entry, write the
file back. -/
def saveTokenToCache (store : TokenStore) (accountName : String)
    (record : TokenRecord) : TokenStore :=
  match store with
  | some cache => some (setCache cache accountName record)
  | none => some (setCache [] accountName record)

/-- `AuthManager.clearTokenCache` (auth.ts, lines 173-192): with an account
name, delete that key from the file when the file exists (and do nothing
when it does not); without an account name, unlink the whole file when it
exists. -/
def clearTokenCache (store : TokenStore) (accountName : Option String) :
    TokenStore :=
  match accountName with
  | some n =>
    match store with
    | some cache => some (eraseCache cache n)
    | none => none
  | none =>
    match store with
    | some _ => none
    | none => none

/-- The state `AuthManager.getAccessToken` runs against: the configured
accounts (the keys of the `msalClients` map built in the constructor), the
token store, the current instant, and the provider's response to a silent
token request per account (`acquireTokenSilent`, a network call). -/
structure AuthEnv where
  registry : List AccountConfig
  store : TokenStore
  now : Int
  silent : String → Except String TokenRecord

/-- `AuthManager.getAccessToken` (auth.ts, lines 83-121), returning the
optional token, the token store after the call, and the number of network
calls made.  Unknown account: throw.  Cached and `expiresOn > now`: return
the cached access token with no network call.  Cached with a truthy
`account` handle otherwise: one `acquireTokenSilent` call, saving and
returning its token on success and returning `null` on failure (the catch
logs and returns).  Otherwise `null` with no network call. -/
def getAccessToken (env : AuthEnv) (accountName : String) :
    Except String (Option String × TokenStore × Nat) :=
  if accountName ∈ getAllAccountNames env.registry then
    match loadTokenFromCache env.store accountName with
    | some cachedToken =>
      if env.now < cachedToken.expiresOn then
        Except.ok (some cachedToken.accessToken, env.store, 0)
      else
        match cachedToken.account with
        | some _ =>
          match env.silent accountName with
          | Except.ok response =>
            Except.ok (some response.accessToken,
              saveTokenToCache env.store accountName response, 1)
          | Except.error _ => Except.ok (none, env.store, 1)
        | none => Except.ok (none, env.store, 0)
    | none => Except.ok (none, env.store, 0)
  else
    Except.error ("Account " ++ accountName ++ " not found")

/-- The `server` section of config.json (types.ts, `ServerConfig`). -/
structure ServerConfig where
  port : Int
  redirectUri : String
deriving DecidableEq

/-- A parsed config.json.  JSON may lack either section, hence the
`Option`s; `!config.accounts` is falsy both for an absent key and only
then (an array, even empty, is truthy, so emptiness is tested by length). -/
structure ConfigFile where
  accounts : Option (List AccountConfig)
  server : Option ServerConfig
deriving DecidableEq

/-- The environment variables read by the fallback path of `loadConfig`
(config.ts, lines 39-52); unset variables are modelled as the empty string
(both are falsy), and `portVal` is the already-parsed
`parseInt(process.env.PORT or '3000')`. -/
structure EnvVars where
  tenantId : String
  clientId : String
  clientSecret : String
  redirectUri : String
  portVal : Int
deriving DecidableEq

/-- `loadConfig` (config.ts, lines 29-55): use config.json when present,
else synthesize a single `Default` account from environment variables
when both `CLIENT_ID` and `CLIENT_SECRET` are truthy, else throw. -/
def loadConfig (file : Option ConfigFile) (env : EnvVars) :
    Except String ConfigFile :=
  match file with
  | some c => Except.ok c
  | none =>
    if env.clientId ≠ "" ∧ env.clientSecret ≠ "" then
      Except.ok
        ⟨some [⟨"Default",
            (if env.tenantId = "" then "common" else env.tenantId),
            env.clientId, env.clientSecret⟩],
         some ⟨env.portVal,
            (if env.redirectUri = "" then
              "http://localhost:3000/auth/callback" else env.redirectUri)⟩⟩
    else
      Except.error
        "No configuration found. Please create a config.json file or set environment variables."

/-- The per-account loop of the validation block (config.ts, lines 64-68):
throw at the first account with a falsy name, clientId or clientSecret. -/
def validateAccountList : List AccountConfig → Except String Unit
  | [] => Except.ok ()
  | account :: rest =>
    if account.name = "" ∨ account.clientId = "" ∨ account.clientSecret = "" then
      Except.error ("Invalid account configuration for " ++
        (if account.name = "" then "unnamed account" else account.name))
    else validateAccountList rest

/-- The validation block run at module load (config.ts, lines 60-68):
`!config.accounts or config.accounts.length === 0` is fatal, then each
account must have a truthy name, clientId and clientSecret. -/
def validateConfig (c : ConfigFile) : Except String Unit :=
  match c.accounts with
  | none => Except.error "No accounts configured. Please add at least one account to config.json"
  | some accounts =>
    if accounts.length = 0 then
      Except.error "No accounts configured. Please add at least one account to config.json"
    else validateAccountList accounts

/-- Loading config.ts: `loadConfig` followed by the validation block; any
thrown error aborts the process start. -/
def loadAndValidate (file : Option ConfigFile) (env : EnvVars) :
    Except String ConfigFile :=
  match loadConfig file env with
  | Except.error e => Except.error e
  | Except.ok c =>
    match validateConfig c with
    | Except.error e => Except.error e
    | Except.ok _ => Except.ok c

/-- The account list a configuration input yields, written from the spec's
words for the validation claim: the file's accounts when a file is
present, else the synthesized `Default` account when the environment
fallback applies, else none. -/
def configAccounts (file : Option ConfigFile) (env : EnvVars) :
    List AccountConfig :=
  match file with
  | some c => c.accounts.getD []
  | none =>
    if env.clientId ≠ "" ∧ env.clientSecret ≠ "" then
      [⟨"Default",
        (if env.tenantId = "" then "common" else env.tenantId),
        env.clientId, env.clientSecret⟩]
    else []

/-- The settlement state of a JavaScript promise.  A promise settles at most
once: a later `resolve` or `reject` on a settled promise is a no-op. -/
inductive PromiseState (α : Type) where
  | pending
  | resolved (value : α)
  | rejected (msg : String)
deriving DecidableEq

/-- Calling `resolve v` on a promise: settles it only when still pending. -/
def promiseResolve {α : Type} (p : PromiseState α) (v : α) : PromiseState α :=
  match p with
  | PromiseState.pending => PromiseState.resolved v
  | PromiseState.resolved w => PromiseState.resolved w
  | PromiseState.rejected e => PromiseState.rejected e

/-- Calling `reject e` on a promise: settles it only when still pending. -/
def promiseReject {α : Type} (p : PromiseState α) (e : String) : PromiseState α :=
  match p with
  | PromiseState.pending => PromiseState.rejected e
  | PromiseState.resolved w => PromiseState.resolved w
  | PromiseState.rejected f => PromiseState.rejected f

/-- The observable state of one `authenticateSingleAccount` call
(index.ts, lines 415-494): the promise it returned (its resolved value
modelled by the text of the reply), whether `this.authServer` still holds
a bound listener, and the `authCodeReceived` flag. -/
structure LoginState where
  promise : PromiseState String
  serverBound : Bool
  authCodeReceived : Bool
deriving DecidableEq

/-- The state right after `this.authServer = app.listen(...)` binds the
listener: promise pending, listener bound, no code received. -/
def initialLoginState : LoginState :=
  ⟨PromiseState.pending, true, false⟩

/-- The `app.listen` callback on its success path (index.ts, lines 464-476):
`getAuthUrl` and `open` succeed and the promise is resolved immediately
with the opening message, before any callback or timeout. -/
def onListenSuccess (s : LoginState) (accountName : String) : LoginState :=
  ⟨promiseResolve s.promise
      ("Opening browser for " ++ accountName ++
        " authentication. Please complete the login process."),
    s.serverBound, s.authCodeReceived⟩

/-- The 300000 ms `setTimeout` handler (index.ts, lines 486-492): when no
code was received and the listener is still bound, close the listener and
call `reject(new Error('Authentication timeout'))`. -/
def onTimeout (s : LoginState) : LoginState :=
  if !s.authCodeReceived && s.serverBound then
    ⟨promiseReject s.promise "Authentication timeout", false, s.authCodeReceived⟩
  else s

/-- The run of `authenticateSingleAccount` in which the listener binds, the
authorization URL opens, and no callback ever arrives before the 5-minute
timeout fires: listen-success then timeout. -/
def loginNoCallbackRun (accountName : String) : LoginState :=
  onTimeout (onListenSuccess initialLoginState accountName)

/-- The account `handleMailSend` sends from (index.ts, line 768):
`args.account or this.authManager.getAllAccountNames()[0]`; a provided
empty string is falsy, and indexing an empty list is `undefined`. -/
def mailSendAccountToUse (accounts : List AccountConfig)
    (argsAccount : Option String) : Option String :=
  match argsAccount with
  | some a => if a = "" then (getAllAccountNames accounts).head? else some a
  | none => (getAllAccountNames accounts).head?

/-- The downstream `sendMail` calls `handleMailSend` performs
(index.ts, lines 738-780), by sending account: the body constructs one
`GraphClient` for `accountToUse` and calls `sendMail` exactly once. -/
def handleMailSendCalls (accounts : List AccountConfig)
    (argsAccount : Option String) : List (Option String) :=
  [mailSendAccountToUse accounts argsAccount]

/-- The array-filling step of `Promise.allSettled`: tasks complete in the
order given by `schedule` (a list of task indices), and each completion
writes its outcome into its own original slot. -/
def fillSlots {α : Type} (init : List α) (schedule : List Nat) (f : Nat → α) :
    List α :=
  match schedule with
  | [] => init
  | j :: rest => fillSlots (init.set j (f j)) rest f

/-- `executeForAccounts` with the event-loop completion order made explicit:
the tasks of the resolved account list complete in the order given by
`schedule` and `Promise.allSettled` joins them by original index. -/
def executeForAccountsSched {T : Type} (accounts : List AccountConfig)
    (accountName : Option String) (operation : String → Except String T)
    (schedule : List Nat) : List (AccountOutcome T) :=
  let resolved := resolveAccounts accounts accountName
  fillSlots (List.replicate resolved.length ⟨"", none, none⟩) schedule
    (fun i => match resolved[i]? with
      | some a => runOne operation a
      | none => ⟨"", none, none⟩)

theorem string_eq_empty_of_length_eq_zero (s : String) (h : s.length = 0) :
    s = "" :=
  String.ext (List.length_eq_zero.mp h)

theorem append_ne_empty_left (s t : String) (h : s ≠ "") : s ++ t ≠ "" := by
  intro he
  apply h
  apply string_eq_empty_of_length_eq_zero
  have hl := congrArg String.length he
  rw [String.length_append, String.length_empty] at hl
  omega

theorem joinSep_cons_ne_empty (sep x : String) (xs : List String) (hx : x ≠ "") :
    joinSep sep (x :: xs) ≠ "" := by
  cases xs with
  | nil => simpa [joinSep] using hx
  | cons y ys =>
    show x ++ sep ++ joinSep sep (y :: ys) ≠ ""
    exact append_ne_empty_left _ _ (append_ne_empty_left _ _ hx)

theorem block_ne_empty (a b c : String) : "[" ++ a ++ b ++ c ≠ "" :=
  append_ne_empty_left _ _ (append_ne_empty_left _ _
    (append_ne_empty_left _ _ (by decide)))

theorem multiResponseText_eq_aggSpecText {T : Type} (fmt : Option T → String)
    (results : List (AccountOutcome T)) :
    multiResponseText fmt results = aggSpecText fmt results := by
  rcases hs : results.filter (fun r => !errorTruthy r.error) with _ | ⟨a, as⟩ <;>
    rcases he : results.filter (fun r => errorTruthy r.error) with _ | ⟨b, bs⟩
  · simp [multiResponseText, aggSpecText, successBlocks, errorLines, hs, he]
  · simp [multiResponseText, aggSpecText, successBlocks, errorLines, hs, he]
  · simp [multiResponseText, aggSpecText, successBlocks, errorLines, hs, he]
  · have hne : joinSep "\n\n"
        (("[" ++ a.account ++ "]\n" ++ fmt a.data) ::
          as.map (fun r => "[" ++ r.account ++ "]\n" ++ fmt r.data)) ≠ "" :=
      joinSep_cons_ne_empty _ _ _ (block_ne_empty _ _ _)
    simp [multiResponseText, aggSpecText, successBlocks, errorLines, hs, he, hne]

theorem eraseCache_of_lookup_none (cache : TokenCacheFile) (n : String)
    (h : lookupCache cache n = none) : eraseCache cache n = cache := by
  induction cache with
  | nil => rfl
  | cons p rest ih =>
    obtain ⟨k, v⟩ := p
    by_cases hk : k = n
    · simp [lookupCache, hk] at h
    · simp only [lookupCache, hk, if_false, if_neg hk] at h
      simp [eraseCache, hk, ih h]

theorem validateAccountList_error_iff (l : List AccountConfig) :
    (∃ e, validateAccountList l = Except.error e) ↔
      ∃ a ∈ l, a.name = "" ∨ a.clientId = "" ∨ a.clientSecret = "" := by
  induction l with
  | nil => simp [validateAccountList]
  | cons a rest ih =>
    by_cases hb : a.name = "" ∨ a.clientId = "" ∨ a.clientSecret = ""
    · simp [validateAccountList, hb]
    · simp only [validateAccountList]
      rw [if_neg hb, ih]
      simp only [List.mem_cons]
      constructor
      · rintro ⟨x, hx, hbad⟩
        exact ⟨x, Or.inr hx, hbad⟩
      · rintro ⟨x, hx | hx, hbad⟩
        · exact absurd (hx ▸ hbad) hb
        · exact ⟨x, hx, hbad⟩

theorem runOne_account {T : Type} (operation : String → Except String T)
    (a : String) : (runOne operation a).account = a := by
  cases h : operation a <;> simp [runOne, h]

theorem fillSlots_length {α : Type} (schedule : List Nat) (init : List α)
    (f : Nat → α) : (fillSlots init schedule f).length = init.length := by
  induction schedule generalizing init with
  | nil => rfl
  | cons j rest ih => simp [fillSlots, ih]

theorem fillSlots_getElem {α : Type} (schedule : List Nat) (init : List α)
    (f : Nat → α) (i : Nat) (hi : i < init.length) :
    (fillSlots init schedule f)[i]? =
      if i ∈ schedule then some (f i) else init[i]? := by
  induction schedule generalizing init with
  | nil => simp [fillSlots]
  | cons j rest ih =>
    rw [fillSlots]
    have hi' : i < (init.set j (f j)).length := by simpa using hi
    rw [ih (init.set j (f j)) hi']
    by_cases hmem : i ∈ rest
    · simp [hmem]
    · by_cases hij : i = j
      · subst hij
        simp [hmem, List.getElem?_set_self hi]
      · have hji : j ≠ i := fun h => hij h.symm
        simp [hmem, hij, List.getElem?_set_ne hji]

/-- C1, counterexample: with registry `[Work]` and unknown target `Ghost`,
the executor does not fail with AccountNotFound before invoking anything —
it invokes the per-account operation for `Ghost` (the operation's result
appears as the outcome's data) and produces a one-element outcome
sequence. -/
theorem c1_counterexample :
    (getAllAccountNames [⟨"Work", "t1", "c1", "s1"⟩]).contains "Ghost" = false ∧
    executeForAccounts [(⟨"Work", "t1", "c1", "s1"⟩ : AccountConfig)]
        (some "Ghost") (fun account => Except.ok account) =
      [⟨"Ghost", some "Ghost", none⟩] ∧
    (executeForAccounts [(⟨"Work", "t1", "c1", "s1"⟩ : AccountConfig)]
        (some "Ghost") (fun account => Except.ok account)).length = 1 := by
  refine ⟨rfl, rfl, rfl⟩

/-- C1 (amended): `executeForAccounts` performs no Registry validation of
the target account.  For any provided non-empty target name, known to the
Registry or not, it resolves the account set to exactly that one name and
invokes the operation for it, returning a single-element outcome sequence;
an unknown account surfaces only inside the per-account operation, where
`AuthManager.getAccessToken` throws the account-not-found error that the
executor then captures as that outcome's error. -/
theorem c1_amended_no_registry_validation {T : Type}
    (accounts : List AccountConfig) (n : String)
    (operation : String → Except String T) (env : AuthEnv)
    (hne : n ≠ "") (hmem : n ∉ getAllAccountNames accounts)
    (hreg : env.registry = accounts) :
    executeForAccounts accounts (some n) operation = [runOne operation n] ∧
    getAccessToken env n = Except.error ("Account " ++ n ++ " not found") := by
  constructor
  · simp [executeForAccounts, resolveAccounts, hne]
  · have hmem' : n ∉ getAllAccountNames env.registry := by
      rw [hreg]; exact hmem
    simp [getAccessToken, hmem']

/-- C1, witness for the amended theorem at a concrete registry and
operation. -/
theorem c1_witness :
    executeForAccounts [(⟨"Work", "t1", "c1", "s1"⟩ : AccountConfig)]
        (some "Ghost") (fun account => Except.ok account) =
      [runOne (fun account => Except.ok account) "Ghost"] ∧
    getAccessToken ⟨[⟨"Work", "t1", "c1", "s1"⟩], none, 0,
        fun _ => Except.error "refresh failed"⟩ "Ghost" =
      Except.error ("Account " ++ "Ghost" ++ " not found") :=
  c1_amended_no_registry_validation [⟨"Work", "t1", "c1", "s1"⟩] "Ghost"
    (fun account => Except.ok account)
    ⟨[⟨"Work", "t1", "c1", "s1"⟩], none, 0, fun _ => Except.error "refresh failed"⟩
    (by decide) (by decide) rfl

/-- C2: with exactly one outcome carrying a (truthy) error, the aggregator
fails with a message containing the account name; with exactly one
successful outcome it returns the data unwrapped; with two or more
outcomes it never fails, and its reply concatenates one labelled block per
success, in account order, followed by one labelled block per error
(`aggSpecText`, written from the claim's words). -/
theorem c2_aggregation_shape {T : Type} (fmt : Option T → String)
    (results : List (AccountOutcome T)) :
    (∀ r, results = [r] → errorTruthy r.error = true →
      ∃ e, formatMultiAccountResponse fmt results = Except.error e ∧
        ∃ suffix, e = r.account ++ suffix) ∧
    (∀ r, results = [r] → errorTruthy r.error = false →
      formatMultiAccountResponse fmt results =
        Except.ok (AggReply.single r.data)) ∧
    (2 ≤ results.length →
      formatMultiAccountResponse fmt results =
        Except.ok (AggReply.multi (aggSpecText fmt results))) := by
  refine ⟨?_, ?_, ?_⟩
  · rintro r rfl herr
    refine ⟨r.account ++ ": " ++ r.error.getD "", ?_, ": " ++ r.error.getD "", ?_⟩
    · simp [formatMultiAccountResponse, herr]
    · rw [String.append_assoc]
  · rintro r rfl herr
    simp [formatMultiAccountResponse, herr]
  · intro hlen
    match results, hlen with
    | a :: b :: rest, _ =>
      show Except.ok (AggReply.multi (multiResponseText fmt (a :: b :: rest))) = _
      rw [multiResponseText_eq_aggSpecText]

/-- C2, witness: a single error outcome fails with the account name in the
message, a single success is returned unwrapped, and a 3-outcome set with
2 successes and 1 failure yields the concatenated labelled reply. -/
theorem c2_witness :
    (∃ e, formatMultiAccountResponse (fun d => d.getD "")
        [(⟨"A", none, some "boom"⟩ : AccountOutcome String)] = Except.error e ∧
        ∃ suffix, e = "A" ++ suffix) ∧
    formatMultiAccountResponse (fun d => d.getD "")
        [(⟨"B", some "fine", none⟩ : AccountOutcome String)] =
      Except.ok (AggReply.single (some "fine")) ∧
    formatMultiAccountResponse (fun d => d.getD "")
        [⟨"A", some "x", none⟩, ⟨"B", some "y", none⟩, ⟨"C", none, some "bad"⟩] =
      Except.ok (AggReply.multi "[A]\nx\n\n[B]\ny\n\n[C] Error: bad") := by
  refine ⟨(c2_aggregation_shape (fun d => d.getD "") _).1 _ rfl (by decide),
    (c2_aggregation_shape (fun d => d.getD "") _).2.1 _ rfl (by decide),
    ((c2_aggregation_shape (fun d => d.getD "") _).2.2 (by decide)).trans ?_⟩
  rfl

/-- C3: for a configured account whose cached record exists with
`expiresOn` strictly after now, `getAccessToken` returns exactly the
cached access token, leaves the store unchanged, and makes zero network
calls. -/
theorem c3_token_reuse (env : AuthEnv) (accountName : String)
    (record : TokenRecord)
    (hreg : accountName ∈ getAllAccountNames env.registry)
    (hrec : loadTokenFromCache env.store accountName = some record)
    (hexp : env.now < record.expiresOn) :
    getAccessToken env accountName =
      Except.ok (some record.accessToken, env.store, 0) := by
  simp [getAccessToken, hreg, hrec, hexp]

/-- C3, witness at a concrete environment with an unexpired cached token. -/
theorem c3_witness :
    getAccessToken ⟨[⟨"Work", "t1", "c1", "s1"⟩],
        some [("Work", ⟨"tok123", 2000, none⟩)], 1000,
        fun _ => Except.error "refresh must not be called"⟩ "Work" =
      Except.ok (some "tok123", some [("Work", ⟨"tok123", 2000, none⟩)], 0) :=
  c3_token_reuse
    ⟨[⟨"Work", "t1", "c1", "s1"⟩], some [("Work", ⟨"tok123", 2000, none⟩)],
      1000, fun _ => Except.error "refresh must not be called"⟩
    "Work" ⟨"tok123", 2000, none⟩ (by decide) (by decide) (by decide)

/-- C4: for a configured account, an expired cached token with a refresh
handle triggers exactly one silent-refresh call — on success the new token
is persisted to the store returned alongside it, on failure the result is
absent with the store untouched; with no cached record, or an expired
record without a handle, the result is absent with zero network calls; and
in every one of these situations the call returns rather than throws. -/
theorem c4_refresh_on_expiry (env : AuthEnv) (accountName : String)
    (hreg : accountName ∈ getAllAccountNames env.registry) :
    (∀ record handle,
      loadTokenFromCache env.store accountName = some record →
      record.expiresOn ≤ env.now → record.account = some handle →
      (∀ response, env.silent accountName = Except.ok response →
        getAccessToken env accountName =
          Except.ok (some response.accessToken,
            saveTokenToCache env.store accountName response, 1)) ∧
      (∀ e, env.silent accountName = Except.error e →
        getAccessToken env accountName = Except.ok (none, env.store, 1))) ∧
    (loadTokenFromCache env.store accountName = none →
      getAccessToken env accountName = Except.ok (none, env.store, 0)) ∧
    (∀ record, loadTokenFromCache env.store accountName = some record →
      record.expiresOn ≤ env.now → record.account = none →
      getAccessToken env accountName = Except.ok (none, env.store, 0)) ∧
    (∃ r, getAccessToken env accountName = Except.ok r) := by
  refine ⟨?_, ?_, ?_, ?_⟩
  · intro record handle hrec hexp hhandle
    have hlt : ¬ env.now < record.expiresOn := by omega
    constructor
    · intro response hresp
      simp [getAccessToken, hreg, hrec, hlt, hhandle, hresp]
    · intro e herr
      simp [getAccessToken, hreg, hrec, hlt, hhandle, herr]
  · intro hrec
    simp [getAccessToken, hreg, hrec]
  · intro record hrec hexp hhandle
    have hlt : ¬ env.now < record.expiresOn := by omega
    simp [getAccessToken, hreg, hrec, hlt, hhandle]
  · rw [getAccessToken, if_pos hreg]
    cases hrec : loadTokenFromCache env.store accountName with
    | none => exact ⟨_, rfl⟩
    | some record =>
      by_cases hexp : env.now < record.expiresOn
      · simp [hexp]
      · simp only [if_neg hexp]
        cases record.account with
        | none => exact ⟨_, rfl⟩
        | some handle =>
          cases env.silent accountName with
          | ok response => exact ⟨_, rfl⟩
          | error e => exact ⟨_, rfl⟩

/-- C4, witness: expired cached token with a handle and a succeeding
provider refresh — one network call, new token persisted and returned. -/
theorem c4_witness :
    getAccessToken ⟨[⟨"Work", "t1", "c1", "s1"⟩],
        some [("Work", ⟨"old", 500, some ⟨"h1", "u1"⟩⟩)], 1000,
        fun _ => Except.ok ⟨"new", 5000, some ⟨"h1", "u1"⟩⟩⟩ "Work" =
      Except.ok (some "new", some [("Work", ⟨"new", 5000, some ⟨"h1", "u1"⟩⟩)], 1) := by
  have h := ((c4_refresh_on_expiry
      ⟨[⟨"Work", "t1", "c1", "s1"⟩],
        some [("Work", ⟨"old", 500, some ⟨"h1", "u1"⟩⟩)], 1000,
        fun _ => Except.ok ⟨"new", 5000, some ⟨"h1", "u1"⟩⟩⟩ "Work"
      (by decide)).1 ⟨"old", 500, some ⟨"h1", "u1"⟩⟩ ⟨"h1", "u1"⟩
      (by decide) (by decide) rfl).1 ⟨"new", 5000, some ⟨"h1", "u1"⟩⟩ rfl
  exact h.trans rfl

/-- C5: on the resolved account set, when the operation fails for the
account at position i and succeeds for every other position, the executor
returns one outcome per resolved account — the i-th carrying the
stringified error, every other carrying data — and, being a total
function, lets no exception escape. -/
theorem c5_fanout_isolation {T : Type} (accounts : List AccountConfig)
    (accountName : Option String) (operation : String → Except String T)
    (i : Nat) (failingAccount : String) (msg : String)
    (hidx : (resolveAccounts accounts accountName)[i]? = some failingAccount)
    (hfail : operation failingAccount = Except.error msg)
    (hok : ∀ j account, j ≠ i →
      (resolveAccounts accounts accountName)[j]? = some account →
      ∃ d, operation account = Except.ok d) :
    (executeForAccounts accounts accountName operation).length =
      (resolveAccounts accounts accountName).length ∧
    (executeForAccounts accounts accountName operation)[i]? =
      some ⟨failingAccount, none, some msg⟩ ∧
    ∀ j account, j ≠ i →
      (resolveAccounts accounts accountName)[j]? = some account →
      ∃ d, (executeForAccounts accounts accountName operation)[j]? =
        some ⟨account, some d, none⟩ := by
  refine ⟨by simp [executeForAccounts], ?_, ?_⟩
  · rw [executeForAccounts, List.getElem?_map, hidx]
    simp [runOne, hfail]
  · intro j account hne hj
    obtain ⟨d, hd⟩ := hok j account hne hj
    refine ⟨d, ?_⟩
    rw [executeForAccounts, List.getElem?_map, hj]
    simp [runOne, hd]

/-- C5, witness: three accounts, the middle operation rejects, the others
succeed; three outcomes come back in place. -/
theorem c5_witness :
    (executeForAccounts
        [⟨"A", "t", "c", "s"⟩, ⟨"B", "t", "c", "s"⟩, ⟨"C", "t", "c", "s"⟩] none
        (fun a => if a = "B" then Except.error "boom" else Except.ok a)).length = 3 ∧
    (executeForAccounts
        [⟨"A", "t", "c", "s"⟩, ⟨"B", "t", "c", "s"⟩, ⟨"C", "t", "c", "s"⟩] none
        (fun a => if a = "B" then Except.error "boom" else Except.ok a))[1]? =
      some ⟨"B", none, some "boom"⟩ := by
  have h := c5_fanout_isolation
    [⟨"A", "t", "c", "s"⟩, ⟨"B", "t", "c", "s"⟩, ⟨"C", "t", "c", "s"⟩] none
    (fun a => if a = "B" then Except.error "boom" else Except.ok a)
    1 "B" "boom" (by decide) rfl
    (fun j account hne hj => by
      match j, hj with
      | 0, hj =>
        obtain rfl : account = "A" := by
          have h2 := hj
          simp [resolveAccounts, getAllAccountNames] at h2
          exact h2.symm
        exact ⟨"A", rfl⟩
      | 1, hj => exact absurd rfl hne
      | 2, hj =>
        obtain rfl : account = "C" := by
          have h2 := hj
          simp [resolveAccounts, getAllAccountNames] at h2
          exact h2.symm
        exact ⟨"C", rfl⟩
      | n + 3, hj => simp [resolveAccounts, getAllAccountNames] at hj)
  exact ⟨h.1.trans rfl, h.2.1⟩

/-- C6: for every completion schedule that is a permutation of the task
indices, joining the settled tasks by original slot yields exactly the
in-order map — the i-th outcome belongs to the i-th resolved account,
regardless of completion order. -/
theorem c6_result_order {T : Type} (accounts : List AccountConfig)
    (accountName : Option String) (operation : String → Except String T)
    (schedule : List Nat)
    (hperm : schedule.Perm
      (List.range (resolveAccounts accounts accountName).length)) :
    executeForAccountsSched accounts accountName operation schedule =
      executeForAccounts accounts accountName operation ∧
    ∀ i : Nat, ((executeForAccounts accounts accountName operation)[i]?).map
        AccountOutcome.account = (resolveAccounts accounts accountName)[i]? := by
  constructor
  · apply List.ext_getElem?
    intro i
    simp only [executeForAccountsSched, executeForAccounts]
    by_cases hi : i < (resolveAccounts accounts accountName).length
    · have hi' : i < (List.replicate (resolveAccounts accounts accountName).length
          (⟨"", none, none⟩ : AccountOutcome T)).length := by simpa using hi
      rw [fillSlots_getElem _ _ _ _ hi']
      have hmem : i ∈ schedule := hperm.mem_iff.mpr (List.mem_range.mpr hi)
      rw [if_pos hmem, List.getElem?_map, List.getElem?_eq_getElem hi]
      simp
    · have h1 : (fillSlots (List.replicate
          (resolveAccounts accounts accountName).length
          (⟨"", none, none⟩ : AccountOutcome T)) schedule
          (fun j => match (resolveAccounts accounts accountName)[j]? with
            | some a => runOne operation a
            | none => ⟨"", none, none⟩)).length ≤ i := by
        rw [fillSlots_length]
        simpa using Nat.le_of_not_lt hi
      have h2 : ((resolveAccounts accounts accountName).map
          (runOne operation)).length ≤ i := by
        simpa using Nat.le_of_not_lt hi
      rw [List.getElem?_eq_none h1, List.getElem?_eq_none h2]
  · intro i
    rw [executeForAccounts, List.getElem?_map, Option.map_map]
    cases hi : (resolveAccounts accounts accountName)[i]? with
    | none => rfl
    | some a => simp [runOne_account]

/-- C6, witness: a completion order 2, 0, 1 over three accounts still
yields the input-ordered outcome sequence. -/
theorem c6_witness :
    executeForAccountsSched
        [⟨"A", "t", "c", "s"⟩, ⟨"B", "t", "c", "s"⟩, ⟨"C", "t", "c", "s"⟩] none
        (fun a => Except.ok a) [2, 0, 1] =
      executeForAccounts
        [⟨"A", "t", "c", "s"⟩, ⟨"B", "t", "c", "s"⟩, ⟨"C", "t", "c", "s"⟩] none
        (fun a => Except.ok a) ∧
    executeForAccounts
        [⟨"A", "t", "c", "s"⟩, ⟨"B", "t", "c", "s"⟩, ⟨"C", "t", "c", "s"⟩] none
        (fun a => Except.ok a) =
      [⟨"A", some "A", none⟩, ⟨"B", some "B", none⟩, ⟨"C", some "C", none⟩] := by
  refine ⟨(c6_result_order
    [⟨"A", "t", "c", "s"⟩, ⟨"B", "t", "c", "s"⟩, ⟨"C", "t", "c", "s"⟩] none
    (fun a => Except.ok a) [2, 0, 1] (by decide)).1, rfl⟩

/-- C7: loading fails exactly when the configuration yields no accounts or
some account has an empty name, clientId or clientSecret; and a
configuration whose accounts all carry those three fields non-empty loads
successfully. -/
theorem c7_config_validation (file : Option ConfigFile) (env : EnvVars) :
    ((∃ e, loadAndValidate file env = Except.error e) ↔
      (configAccounts file env = [] ∨
        ∃ a ∈ configAccounts file env,
          a.name = "" ∨ a.clientId = "" ∨ a.clientSecret = "")) ∧
    ((configAccounts file env ≠ [] ∧
        ∀ a ∈ configAccounts file env,
          a.name ≠ "" ∧ a.clientId ≠ "" ∧ a.clientSecret ≠ "") →
      ∃ c, loadAndValidate file env = Except.ok c) := by
  have hmain : (∃ e, loadAndValidate file env = Except.error e) ↔
      (configAccounts file env = [] ∨
        ∃ a ∈ configAccounts file env,
          a.name = "" ∨ a.clientId = "" ∨ a.clientSecret = "") := by
    cases file with
    | some c =>
      cases hacc : c.accounts with
      | none =>
        simp [loadAndValidate, loadConfig, validateConfig, configAccounts, hacc]
      | some accts =>
        cases accts with
        | nil =>
          simp [loadAndValidate, loadConfig, validateConfig, configAccounts, hacc]
        | cons a rest =>
          cases hval : validateAccountList (a :: rest) with
          | error e1 =>
            have hbad : ∃ x ∈ a :: rest,
                x.name = "" ∨ x.clientId = "" ∨ x.clientSecret = "" :=
              (validateAccountList_error_iff _).mp ⟨e1, hval⟩
            simp [loadAndValidate, loadConfig, validateConfig, configAccounts,
              hacc, hval]
            simpa using hbad
          | ok u =>
            have hno : ¬ ∃ x ∈ a :: rest,
                x.name = "" ∨ x.clientId = "" ∨ x.clientSecret = "" := by
              rw [← validateAccountList_error_iff]
              rintro ⟨e, he⟩
              rw [hval] at he
              exact Except.noConfusion he
            simp [loadAndValidate, loadConfig, validateConfig, configAccounts,
              hacc, hval]
            simpa using hno
    | none =>
      by_cases henv : env.clientId ≠ "" ∧ env.clientSecret ≠ ""
      · simp [loadAndValidate, loadConfig, validateConfig, validateAccountList,
          configAccounts, henv, henv.1, henv.2]
      · simp [loadAndValidate, loadConfig, configAccounts, henv]
  refine ⟨hmain, ?_⟩
  rintro ⟨hne, hgood⟩
  cases hres : loadAndValidate file env with
  | error e =>
    rcases hmain.mp ⟨e, hres⟩ with hempty | ⟨a, ha, hbad⟩
    · exact absurd hempty hne
    · rcases hgood a ha with ⟨h1, h2, h3⟩
      rcases hbad with hb | hb | hb
      · exact absurd hb h1
      · exact absurd hb h2
      · exact absurd hb h3
  | ok c => exact ⟨c, rfl⟩

/-- C7, witness: a well-formed single-account file loads, and an input
yielding no accounts fails. -/
theorem c7_witness :
    (loadAndValidate (some ⟨some [⟨"Work", "t1", "c1", "s1"⟩], none⟩)
        ⟨"", "", "", "", 3000⟩).isOk = true ∧
    (loadAndValidate (some ⟨some [], none⟩)
        ⟨"", "", "", "", 3000⟩).isOk = false := by
  constructor
  · obtain ⟨c, hc⟩ :=
      (c7_config_validation (some ⟨some [⟨"Work", "t1", "c1", "s1"⟩], none⟩)
        ⟨"", "", "", "", 3000⟩).2 ⟨by decide, by decide⟩
    rw [hc]
    rfl
  · obtain ⟨e, he⟩ :=
      (c7_config_validation (some ⟨some [], none⟩)
        ⟨"", "", "", "", 3000⟩).1.mpr (Or.inl (by decide))
    rw [he]
    rfl

/-- C8, counterexample: in the run where the listener binds, the
authorization URL opens and no callback ever arrives, the future has
already resolved with the opening-message reply, so the 5-minute timeout
does not settle it as an AuthenticationTimeout failure (its rejection is a
no-op); the listener, however, is indeed released. -/
theorem c8_counterexample :
    (loginNoCallbackRun "Work").serverBound = false ∧
    (loginNoCallbackRun "Work").promise ≠
      PromiseState.rejected "Authentication timeout" ∧
    (loginNoCallbackRun "Work").promise =
      PromiseState.resolved
        "Opening browser for Work authentication. Please complete the login process." := by
  refine ⟨rfl, fun h => PromiseState.noConfusion h, rfl⟩

/-- C8 (amended): an interactive login whose listener binds and whose
authorization URL opens resolves its returned future immediately with the
opening message; when no callback arrives within the 5-minute deadline the
timeout handler does release the bound listener (so a subsequent login on
the same port can bind), but its rejection is a no-op on the
already-settled future, which therefore never settles as
AuthenticationTimeout. -/
theorem c8_amended_timeout_releases_listener_only (accountName : String) :
    loginNoCallbackRun accountName =
      ⟨PromiseState.resolved ("Opening browser for " ++ accountName ++
          " authentication. Please complete the login process."),
        false, false⟩ :=
  rfl

/-- C9: deleting the token of an account with no cached token leaves the
store unchanged (and, the operation being total, completes without
error); clearing all tokens removes the file; and after that,
`getAccessToken` returns absent for every configured account, with no
network call. -/
theorem c9_idempotent_logout (store : TokenStore) (n : String)
    (env : AuthEnv) :
    (loadTokenFromCache store n = none → clearTokenCache store (some n) = store) ∧
    clearTokenCache store none = none ∧
    (n ∈ getAllAccountNames env.registry →
      env.store = clearTokenCache store none →
      getAccessToken env n = Except.ok (none, env.store, 0)) := by
  refine ⟨?_, ?_, ?_⟩
  · intro h
    cases store with
    | none => rfl
    | some cache =>
      have h' : lookupCache cache n = none := by
        simpa [loadTokenFromCache] using h
      simp [clearTokenCache, eraseCache_of_lookup_none cache n h']
  · cases store <;> rfl
  · intro hmem hstore
    have hnone : env.store = none := by
      rw [hstore]
      cases store <;> rfl
    simp [getAccessToken, hmem, hnone, loadTokenFromCache]

/-- C9, witness: deleting a missing account's token is a no-op, and after
clearing all tokens the configured account's token is absent. -/
theorem c9_witness :
    clearTokenCache (some [("Work", ⟨"tok", 2000, none⟩)]) (some "Ghost") =
      some [("Work", ⟨"tok", 2000, none⟩)] ∧
    getAccessToken ⟨[⟨"Work", "t1", "c1", "s1"⟩], none, 1000,
        fun _ => Except.error "refresh failed"⟩ "Work" =
      Except.ok (none, none, 0) := by
  constructor
  · exact (c9_idempotent_logout (some [("Work", ⟨"tok", 2000, none⟩)]) "Ghost"
      ⟨[], none, 0, fun _ => Except.error "x"⟩).1 (by decide)
  · exact (c9_idempotent_logout (some [("Work", ⟨"tok", 2000, none⟩)]) "Work"
      ⟨[⟨"Work", "t1", "c1", "s1"⟩], none, 1000,
        fun _ => Except.error "refresh failed"⟩).2.2 (by decide) rfl

/-- C10: a mail-send request that omits the target account performs exactly
one downstream send, from the first account in registry order, and — when
more than one account is configured — is not fanned out across the full
account list. -/
theorem c10_mail_send_single_account (c : AccountConfig)
    (rest : List AccountConfig) :
    handleMailSendCalls (c :: rest) none = [some c.name] ∧
    (handleMailSendCalls (c :: rest) none).length = 1 ∧
    (rest ≠ [] →
      handleMailSendCalls (c :: rest) none ≠
        (resolveAccounts (c :: rest) none).map some) := by
  refine ⟨?_, rfl, ?_⟩
  · simp [handleMailSendCalls, mailSendAccountToUse, getAllAccountNames]
  · intro hr heq
    have hlen := congrArg List.length heq
    simp [handleMailSendCalls, resolveAccounts, getAllAccountNames] at hlen
    exact hr hlen

/-- C10, witness: with two configured accounts and no target, exactly one
send happens, from the first account, not a fan-out. -/
theorem c10_witness :
    handleMailSendCalls [⟨"A", "t", "c", "s"⟩, ⟨"B", "t", "c", "s"⟩] none =
      [some "A"] ∧
    handleMailSendCalls [⟨"A", "t", "c", "s"⟩, ⟨"B", "t", "c", "s"⟩] none ≠
      (resolveAccounts [⟨"A", "t", "c", "s"⟩, ⟨"B", "t", "c", "s"⟩] none).map
        some :=
  ⟨(c10_mail_send_single_account ⟨"A", "t", "c", "s"⟩ [⟨"B", "t", "c", "s"⟩]).1,
    (c10_mail_send_single_account ⟨"A", "t", "c", "s"⟩
      [⟨"B", "t", "c", "s"⟩]).2.2 (by decide)⟩

end MCPOutlook
